import Mathlib

/-!
Verification development for the utilization reporting tool.

The Python sources are shallowly embedded: pandas column operations become
per-cell functions over lists, floats become rationals (`ℚ`), float NaN and
Python `None` are modelled explicitly where the code branches on them, and
code that can raise becomes `Except String`.

File map (source → embedding):
* `src/etl.py`   : `normalize_display_name`, `load_powerbi_export`,
  `map_competency_to_ssl` (its lookup build as `competency_lookup`),
  `enrich_flags_and_util`, `compute_aggregates`
* `src/render_excel.py` : status mask chain of `build_ssl_dataset`
  (`excel_status`, `excel_on_leave`)
* `src/render_html.py`  : `_coerce_bool`, `_status_from_row`, `_border_class`
* `src/render_pdf.py`   : `_util_color`, tile border gate of `draw_tile`
  (`draw_tile_border`), `required_height` and the candidate-size search plus
  drawing loop of `write_ssl_pdf` (`chosen_size`, `draw_tiles_loop`,
  `draw_ranks`, `write_ssl_pdf_overflow`)
-/

/-! ### Python string primitives -/

/-- Whitespace test used by Python `str.strip()`. -/
def pyWS (c : Char) : Bool := c.isWhitespace

/-- Python `str.strip()` on a character list: remove whitespace at both ends. -/
def pyStripL (l : List Char) : List Char :=
  List.dropWhile pyWS (List.rdropWhile pyWS l)

/-- Python `str.strip()`. -/
def pyStrip (s : String) : String := ⟨pyStripL s.data⟩

/-- Python `str.lower()` (ASCII approximation). -/
def pyLower (s : String) : String := ⟨s.data.map Char.toLower⟩

/-- Python `str(b)` for a bool: `"True"` / `"False"`. -/
def pyBoolRepr (b : Bool) : String := if b then "True" else "False"

/-! ### `normalize_display_name` (src/etl.py lines 32-47)

`name.split(",", 1)` splits at the FIRST comma only: the part before it and
the whole rest. -/

/-- Core of `normalize_display_name` on character lists. -/
def normCore (l : List Char) : List Char :=
  if ',' ∈ pyStripL l then
    pyStripL ((pyStripL l).drop
        (((pyStripL l).takeWhile (fun c => !(c == ','))).length + 1))
      ++ [' ']
      ++ pyStripL ((pyStripL l).takeWhile (fun c => !(c == ',')))
  else pyStripL l

/-- `normalize_display_name` from src/etl.py: convert `"Last, First(s)"` to
`"First(s) Last"`; inputs without a comma are returned stripped. (The
non-string branch returning `""` is outside this `String`-typed embedding.) -/
def normalize_display_name (s : String) : String := ⟨normCore s.data⟩

/-! ### Python cell values, numeric coercion, DataFrame
(`load_powerbi_export`, src/etl.py lines 119-178) -/

/-- A pandas cell: a string, a number, or NaN/missing (`null`). -/
inductive PValue where
  | str (s : String)
  | num (q : ℚ)
  | null
deriving DecidableEq

/-- Python `str(x)` on a cell (NaN prints as `"nan"`). -/
def pyStr : PValue → String
  | .str s => s
  | .num q => toString q
  | .null => "nan"

/-- Value of a digit run. -/
def digitsVal (l : List Char) : ℕ := l.foldl (fun a c => a * 10 + (c.toNat - 48)) 0

/-- Decimal parser modelling `pd.to_numeric` on a string: optional sign,
digits with at most one decimal point. -/
def parseDecimal (s : String) : Option ℚ :=
  let l := pyStripL s.data
  let sgn : ℤ := match l with
    | '-' :: _ => -1
    | _ => 1
  let l2 : List Char := match l with
    | '-' :: rest => rest
    | '+' :: rest => rest
    | _ => l
  let ip := l2.takeWhile (fun c => !(c == '.'))
  let rest := l2.drop ip.length
  match rest with
  | [] =>
    if !ip.isEmpty && ip.all Char.isDigit then some ((sgn * (digitsVal ip : ℤ) : ℤ) : ℚ)
    else none
  | _ :: frac =>
    if '.' ∈ frac then none
    else if (ip.all Char.isDigit && frac.all Char.isDigit
        && (!ip.isEmpty || !frac.isEmpty)) then
      some ((sgn : ℚ) * ((digitsVal ip : ℚ) + (digitsVal frac : ℚ) / (10 : ℚ) ^ frac.length))
    else none

/-- `pd.to_numeric(x, errors="coerce")` on one cell; `none` is NaN. -/
def to_numeric_coerce : PValue → Option ℚ
  | .num q => some q
  | .str s => parseDecimal s
  | .null => none

/-- `fillna(0).astype(int)` on one cell of the `Missing Timesheets` column;
`astype(int)` truncates floats toward zero and parses only integer strings. -/
def mt_fillna_int : PValue → Except String ℤ
  | .null => .ok 0
  | .num q => .ok (if q < 0 then ⌈q⌉ else ⌊q⌋)
  | .str s =>
    match s.toInt? with
    | some n => .ok n
    | none => .error "ValueError: invalid literal for int()"

/-- A pandas DataFrame: named columns and positional rows. -/
structure DataFrame where
  cols : List String
  rows : List (List PValue)
deriving DecidableEq

/-- Index of a column name. -/
def colIdx (df : DataFrame) (c : String) : Option ℕ := df.cols.indexOf? c

/-- The cell of row `r` in column `c` (missing positions read as NaN). -/
def cellAt (df : DataFrame) (r : List PValue) (c : String) : PValue :=
  match colIdx df c with
  | some i => r.getD i .null
  | none => .null

/-- Elementwise update of an existing column; identity if absent. -/
def mapCol (df : DataFrame) (c : String) (f : PValue → PValue) : DataFrame :=
  match colIdx df c with
  | some i => { df with rows := df.rows.map (fun r => r.set i (f (r.getD i .null))) }
  | none => df

/-- `df[c] = scalar`: overwrite an existing column or append a new one. -/
def setColConst (df : DataFrame) (c : String) (v : PValue) : DataFrame :=
  match colIdx df c with
  | some i => { df with rows := df.rows.map (fun r => r.set i v) }
  | none => { cols := df.cols ++ [c], rows := df.rows.map (fun r => r ++ [v]) }

/-- `df[dst] = df[src].apply(f)`; KeyError if `src` is absent. -/
def setColFrom (df : DataFrame) (dst src : String) (f : PValue → PValue) :
    Except String DataFrame :=
  match colIdx df src with
  | none => .error (String.append "KeyError: " src)
  | some j =>
    match colIdx df dst with
    | some i => .ok { df with rows := df.rows.map (fun r => r.set i (f (r.getD j .null))) }
    | none => .ok { cols := df.cols ++ [dst],
                    rows := df.rows.map (fun r => r ++ [f (r.getD j .null)]) }

/-- `df[c] = df[c].astype(str).str.strip()`; KeyError if `c` is absent. -/
def astypeStrStrip (df : DataFrame) (c : String) : Except String DataFrame :=
  match colIdx df c with
  | none => .error (String.append "KeyError: " c)
  | some _ => .ok (mapCol df c (fun v => .str (pyStrip (pyStr v))))

/-- Truncate at the first `Total` row of `Employee Name`
(src/etl.py lines 135-141). -/
def truncate_at_total (df : DataFrame) : DataFrame :=
  match colIdx df "Employee Name" with
  | none => df
  | some i =>
    match df.rows.findIdx? (fun r => pyLower (pyStrip (pyStr (r.getD i .null))) == "total") with
    | some k => { df with rows := df.rows.take k }
    | none => df

/-- Drop rows whose `GPN` is NaN (src/etl.py lines 146-147). -/
def drop_null_gpn (df : DataFrame) : DataFrame :=
  match colIdx df "GPN" with
  | none => df
  | some i => { df with rows := df.rows.filter (fun r => !(r.getD i .null == PValue.null)) }

/-- `Missing Timesheets` handling (src/etl.py lines 162-165). -/
def mt_stage (df : DataFrame) : Except String DataFrame :=
  match colIdx df "Missing Timesheets" with
  | none => .ok (setColConst df "Missing Timesheets" (.num 0))
  | some i => do
    let rows ← df.rows.mapM (fun r => do
      let n ← mt_fillna_int (r.getD i .null)
      pure (r.set i (PValue.num (n : ℚ))))
    pure { df with rows := rows }

/-- Hours column handling (src/etl.py lines 171-176): default an absent
column to `0.0`, else coerce to numeric with invalid/missing as `0.0`. -/
def hours_stage (df : DataFrame) (c : String) : DataFrame :=
  match colIdx df c with
  | none => setColConst df c (.num 0)
  | some _ => mapCol df c (fun v => .num ((to_numeric_coerce v).getD 0))

/-- `load_powerbi_export` (src/etl.py lines 119-178). -/
def load_powerbi_export (df0 : DataFrame) : Except String DataFrame := do
  let df1 : DataFrame := { df0 with cols := df0.cols.map pyStrip }
  let df2 := truncate_at_total df1
  let df3 := drop_null_gpn df2
  let df4 ← astypeStrStrip df3 "GPN"
  let df5 ← astypeStrStrip df4 "Employee Name"
  let df6 ← setColFrom df5 "display_name_auto" "Employee Name"
    (fun v => .str (normalize_display_name (pyStr v)))
  let df7 ← astypeStrStrip df6 "Competency"
  let df8 := match colIdx df7 "Rank Description" with
    | some _ => mapCol df7 "Rank Description" (fun v => .str (pyStrip (pyStr v)))
    | none => setColConst df7 "Rank Description" (.str "")
  let df9 ← mt_stage df8
  let df10 := match colIdx df9 "Employee Status" with
    | some _ => df9
    | none => setColConst df9 "Employee Status" (.str "")
  let df11 := hours_stage df10 "Effective Available Hours"
  let df12 := hours_stage df11 "Chargeable Hours"
  pure df12

/-! ### `map_competency_to_ssl` (src/etl.py lines 183-197)

The organizational configuration: business units, each with sub-units
(SSLs), each listing competency areas. The lookup dict is built by plain
assignment, so a later declaration of the same competency area silently
overwrites an earlier one. -/

/-- The `lookup` dict built at src/etl.py lines 184-189. -/
def competency_lookup (cfg : List (String × List (String × List String))) :
    String → Option (String × String) :=
  cfg.foldl
    (fun acc bu =>
      bu.2.foldl
        (fun acc2 ssl =>
          ssl.2.foldl
            (fun a ca => fun x => if x = ca then some (bu.1, ssl.1) else a x)
            acc2)
        acc)
    (fun _ => none)

/-- All (competency, business unit, SSL) declarations in configuration
order. -/
def org_decls (cfg : List (String × List (String × List String))) :
    List (String × String × String) :=
  cfg.flatMap (fun bu => bu.2.flatMap (fun ssl => ssl.2.map (fun ca => (ca, bu.1, ssl.1))))

/-- Target of the last declaration of a competency area, if any. -/
def last_decl (cfg : List (String × List (String × List String))) (ca : String) :
    Option (String × String) :=
  ((org_decls cfg).reverse.find? (fun d => decide (d.1 = ca))).map (fun d => d.2)

/-- Per-record effect of `map_competency_to_ssl` (lines 191-195): the
resolved BU, the resolved SSL, and the `unmapped_competency` flag. -/
def map_competency_to_ssl (cfg : List (String × List (String × List String)))
    (competency : String) : Option String × Option String × Bool :=
  let m := competency_lookup cfg competency
  let bu := m.map Prod.fst
  let ssl := m.map Prod.snd
  (bu, ssl, bu.isNone || ssl.isNone)

/-! ### `enrich_flags_and_util` (src/etl.py lines 202-228) -/

/-- A row after `load_powerbi_export` and `map_competency_to_ssl`, with the
fields `enrich_flags_and_util` reads. -/
structure EtlRow where
  gpn : String
  effective_available_hours : ℚ
  chargeable_hours : ℚ
  missing_timesheets : ℤ
  employee_status : String
  bu : Option String
  ssl : Option String
deriving DecidableEq

/-- Flags and row-level utilization added by `enrich_flags_and_util`. -/
structure EnrichedRow extends EtlRow where
  missing_timesheet : Bool
  vacation : Bool
  inactive_leave : Bool
  util : Option ℚ
deriving DecidableEq

/-- Row utilization (lines 222-226): `available.replace(0, np.nan)` turns an
exactly-zero denominator into NaN (`none`); any other denominator divides. -/
def row_util (avail charge : ℚ) : Option ℚ :=
  if avail = 0 then none else some (charge / avail)

/-- `enrich_flags_and_util` on one row (rank-bucket columns omitted: no
claim concerns them). -/
def enrich_flags_and_util (r : EtlRow) : EnrichedRow :=
  { r with
    missing_timesheet := r.missing_timesheets == 1
    vacation := decide (r.effective_available_hours ≤ 0)
    inactive_leave := pyLower r.employee_status == "inactive"
    util := row_util r.effective_available_hours r.chargeable_hours }

/-! ### `compute_aggregates` (src/etl.py lines 233-273) -/

/-- The columns of the enriched frame that `compute_aggregates` reads. -/
structure AggRecord where
  gpn : String
  bu : Option String
  ssl : Option String
  chargeable_hours : ℚ
  effective_available_hours : ℚ
  missing_timesheet : Bool
  vacation : Bool
deriving DecidableEq

/-- One output row of `compute_aggregates`. -/
structure AggRow where
  bu : Option String
  ssl : Option String
  total_chargeable : ℚ
  total_available : ℚ
  headcount : ℕ
  missing_timesheets : ℕ
  util_all : Option ℚ
  util_excl_missing : Option ℚ
deriving DecidableEq

/-- The groupby key: the (BU, SSL) pair, kept even when null
(`dropna=False`). -/
def agg_key (r : AggRecord) : Option String × Option String := (r.bu, r.ssl)

/-- Sum of chargeable hours. -/
def sum_charge (rs : List AggRecord) : ℚ := (rs.map (fun r => r.chargeable_hours)).sum

/-- Sum of effective available hours. -/
def sum_avail (rs : List AggRecord) : ℚ :=
  (rs.map (fun r => r.effective_available_hours)).sum

/-- The aggregate row of one groupby key, from the vacation-filtered base
frame: totals, headcount (`nunique` of GPN), missing-timesheet count, and
the two ratios (`replace(0, np.nan)` making a zero denominator NaN; a key
absent from the excluding-missing frame left-merges to NaN). -/
def agg_row_for (base : List AggRecord) (k : Option String × Option String) : AggRow :=
  let grp := base.filter (fun r => decide (agg_key r = k))
  let excl := grp.filter (fun r => !r.missing_timesheet)
  let tc := sum_charge grp
  let ta := sum_avail grp
  { bu := k.1
    ssl := k.2
    total_chargeable := tc
    total_available := ta
    headcount := ((grp.map (fun r => r.gpn)).dedup).length
    missing_timesheets := (grp.filter (fun r => r.missing_timesheet)).length
    util_all := if ta = 0 then none else some (tc / ta)
    util_excl_missing :=
      if excl.isEmpty then none
      else if sum_avail excl = 0 then none
      else some (sum_charge excl / sum_avail excl) }

/-- `compute_aggregates`: drop vacation rows, then one aggregate row per
distinct (BU, SSL) key — null keys included (`dropna=False`). Output order
is not modelled (pandas sorts group keys; the claims are order-free). -/
def compute_aggregates (rs : List AggRecord) : List AggRow :=
  let base := rs.filter (fun r => !r.vacation)
  ((base.map agg_key).dedup).map (agg_row_for base)

/-! ### Status derivation
(`_status_from_row` of src/render_html.py lines 26-50 and
src/render_pdf.py lines 24-48, identical; the mask chain of
`build_ssl_dataset`, src/render_excel.py lines 70-83) -/

/-- `_coerce_bool` on the string representation of a value. -/
def coerce_bool_str (s : String) : Bool :=
  let normalized := pyLower (pyStrip s)
  if normalized ∈ (["true", "1", "yes", "y", "t"] : List String) then true
  else if normalized ∈ (["false", "0", "no", "n", "f"] : List String) then false
  else false

/-- `_coerce_bool` applied to `row.get(...)`: `None` (absent) is False, a
stored bool goes through `str(value).strip().lower()`. -/
def _coerce_bool : Option Bool → Bool
  | none => false
  | some b => coerce_bool_str (pyBoolRepr b)

/-- A row as read by `_status_from_row`: each field is `none` when absent
(`row.get` returning `None`); `effective_available_hours` is `none` when
NaN or absent (`pd.notna` fails). -/
structure RenderRow where
  status : Option String
  on_leave_master : Option Bool
  inactive_leave : Option Bool
  effective_available_hours : Option ℚ
  missing_timesheet : Option Bool
  unmapped_competency : Option Bool

/-- The early-return guard: a present, non-empty-after-strip status string. -/
def statusOverride : Option String → Option String
  | some s => if pyStrip s = "" then none else some s
  | none => none

/-- `_status_from_row` (render_html.py lines 26-50 / render_pdf.py 24-48). -/
def _status_from_row (row : RenderRow) : String :=
  match statusOverride row.status with
  | some s => s
  | none =>
    if _coerce_bool row.on_leave_master || _coerce_bool row.inactive_leave then "On leave"
    else if (match row.effective_available_hours with
              | some q => decide (q ≤ 0)
              | none => false) then "Vacation"
    else if _coerce_bool row.missing_timesheet then "Missing timesheet"
    else if _coerce_bool row.unmapped_competency then "Unmapped"
    else "Normal"

/-- The on-leave condition of `build_ssl_dataset` (render_excel.py lines
70-74): roster on-leave OR inactive OR absent from the export. -/
def excel_on_leave (on_leave_bool inactive_leave missing_in_export : Bool) : Bool :=
  on_leave_bool || inactive_leave || missing_in_export

/-- The status mask chain of `build_ssl_dataset` (render_excel.py lines
79-83): start at `"Normal"`, then successively overwrite, the last mask
winning. -/
def excel_status (unmapped missing_ts vacation on_leave : Bool) : String :=
  let s0 := "Normal"
  let s1 := if unmapped then "Unmapped" else s0
  let s2 := if missing_ts then "Missing timesheet" else s1
  let s3 := if vacation then "Vacation" else s2
  if on_leave then "On leave" else s3

/-- The status enum of the spec (section 4.3). -/
inductive SpecStatus where
  | normal
  | unmapped
  | missingTimesheet
  | vacation
  | onLeave
deriving DecidableEq

/-- Precedence rank: Normal < Unmapped < Missing-timesheet < Vacation <
On-leave. -/
def SpecStatus.rank : SpecStatus → ℕ
  | .normal => 0
  | .unmapped => 1
  | .missingTimesheet => 2
  | .vacation => 3
  | .onLeave => 4

/-- Display label of each status. -/
def SpecStatus.label : SpecStatus → String
  | .normal => "Normal"
  | .unmapped => "Unmapped"
  | .missingTimesheet => "Missing timesheet"
  | .vacation => "Vacation"
  | .onLeave => "On leave"

/-- Written from the spec's words (section 4.3), for comparison with the
code: the statuses applicable to a record (Normal always applies). -/
def specApplicable (on_leave vacation missing unmapped : Bool) : List SpecStatus :=
  [.normal]
    ++ (if unmapped then [.unmapped] else [])
    ++ (if missing then [.missingTimesheet] else [])
    ++ (if vacation then [.vacation] else [])
    ++ (if on_leave then [.onLeave] else [])

/-- Written from the spec's words: the single status of highest precedence
among the applicable ones. -/
def specStatusOf (on_leave vacation missing unmapped : Bool) : SpecStatus :=
  (specApplicable on_leave vacation missing unmapped).foldl
    (fun a b => if a.rank < b.rank then b else a) .normal

/-! ### Border encoding
(`_border_class`, src/render_html.py lines 63-74; `_util_color`,
src/render_pdf.py lines 51-61; border gate of `draw_tile`,
src/render_pdf.py lines 165-170) -/

/-- A utilization cell as seen by the renderers: a number, float NaN, or a
non-float (`None`/absent) on which `float()` raises. -/
inductive UtilVal where
  | num (q : ℚ)
  | nan
  | missing
deriving DecidableEq

/-- Python `<` against a constant after a successful `float()` call; NaN
compares False. -/
def floatLt : UtilVal → ℚ → Bool
  | .num q, c => decide (q < c)
  | _, _ => false

/-- Python `<=` against a constant after a successful `float()` call; NaN
compares False. -/
def floatLe : UtilVal → ℚ → Bool
  | .num q, c => decide (q ≤ c)
  | _, _ => false

/-- `_border_class` (render_html.py lines 63-74): only status `"Normal"`
gets a utilization border; `float()` failure gives no border. -/
def _border_class (status : String) (u : UtilVal) : String :=
  if status ≠ "Normal" then "border-none"
  else
    match u with
    | .missing => "border-none"
    | v =>
      if floatLt v (1/4) then "border-green"
      else if floatLt v (3/4) then "border-yellow"
      else "border-red"

/-- `_util_color` (render_pdf.py lines 51-61): grey on `float()` failure;
note the inclusive `util <= 0.75` middle bucket. -/
def _util_color (u : UtilVal) : ℚ × ℚ × ℚ :=
  match u with
  | .missing => (6/10, 6/10, 6/10)
  | v =>
    if floatLt v (1/4) then (0, 176/255, 80/255)
    else if floatLe v (3/4) then (1, 192/255, 0)
    else (1, 0, 0)

/-- The border decision inside `draw_tile` (render_pdf.py lines 165-170): a
colored border exactly for statuses `"Normal"` and `"Unmapped"`. -/
def draw_tile_border (status : String) (u : UtilVal) : Option (ℚ × ℚ × ℚ) :=
  if status = "Normal" ∨ status = "Unmapped" then some (_util_color u) else none

/-! ### Layout sizing engine (`write_ssl_pdf`, src/render_pdf.py)

Constants from the source: `margin = 30`, `col_gap = 6`, `row_gap = 8`,
`title_h = 12`, `section_gap = 4`. A rank section is a pair
`(count, isSplitRank)`; the source instantiates the list with seven rank
buckets and the split at `"Manager"`. `available_w` and `y_start` stay
parameters (the page is A4 landscape in the source). -/

/-- `photo_size > 42` enables name labels (adds 9pt to a tile). -/
def name_h_for (s : ℤ) : ℤ := if s > 42 then 9 else 0

/-- `photo_size >= 70` enables the utilization row (adds 8pt to a tile). -/
def util_h_for (s : ℤ) : ℤ := if s ≥ 70 then 8 else 0

/-- `tile_w = photo_size + 12`. -/
def tile_w_for (s : ℤ) : ℤ := s + 12

/-- `tile_h = photo_size + name_h + util_h + 6`. -/
def tile_h_for (s : ℤ) : ℤ := s + name_h_for s + util_h_for s + 6

/-- `cols = max(1, int((available_w + col_gap) // (tile_w + col_gap)))`. -/
def cols_for (available_w : ℚ) (s : ℤ) : ℕ :=
  max 1 (Int.toNat ⌊(available_w + 6) / ((tile_w_for s : ℚ) + 6)⌋)

/-- One rank's contribution to `required_height` (render_pdf.py lines
254-266): zero when empty, else title, tile rows, row gaps, trailing 10,
the split divider, and `section_gap`. -/
def rank_block_height (tileH : ℤ) (cols : ℕ) (n : ℕ) (split : Bool) : ℤ :=
  if n = 0 then 0
  else
    let rows : ℕ := (n + cols - 1) / cols
    (12 + 3) + (rows : ℤ) * tileH + ((rows : ℤ) - 1) * 8 + 10
      + (if split then 10 else 0) + 4

/-- `required_height(photo_size)` (render_pdf.py lines 244-267). -/
def required_height (available_w : ℚ) (counts : List (ℕ × Bool)) (s : ℤ) : ℤ :=
  (counts.map (fun nb => rank_block_height (tile_h_for s) (cols_for available_w s) nb.1 nb.2)).sum

/-- The descending candidate list (render_pdf.py line 270). -/
def pdf_sizes : List ℤ := [90, 80, 75, 70, 65, 60, 55, 50, 46, 42, 38, 34]

/-- The size search (render_pdf.py lines 269-275): first candidate whose
required height fits, else 34. -/
def chosen_size (available_w available_h : ℚ) (counts : List (ℕ × Bool)) : ℤ :=
  (pdf_sizes.find?
    (fun s => decide ((required_height available_w counts s : ℚ) ≤ available_h))).getD 34

/-- The per-rank tile loop (render_pdf.py lines 300-311): wrap to a new row
when the column index reaches `cols`, and flag overflow when a tile's
bottom would cross the bottom margin (30). Returns the overflow flag and
the final `row_top`. -/
def draw_tiles_loop (cols : ℕ) (tileH : ℤ) : ℕ → ℕ → ℚ → Bool × ℚ
  | 0, _, rowTop => (false, rowTop)
  | n + 1, col, rowTop =>
    let col2 := if col ≥ cols then 0 else col
    let rowTop2 := if col ≥ cols then rowTop - ((tileH : ℚ) + 8) else rowTop
    if rowTop2 - (tileH : ℚ) < 30 then (true, rowTop2)
    else draw_tiles_loop cols tileH n (col2 + 1) rowTop2

/-- The rank loop of `write_ssl_pdf` (render_pdf.py lines 291-322): empty
ranks are skipped; a title line (`title_h + 3`) precedes each section;
after a section the cursor drops `tile_h + 10`, plus 10 at the split rank.
Returns the overflow flag. -/
def draw_ranks (cols : ℕ) (tileH : ℤ) : List (ℕ × Bool) → ℚ → Bool
  | [], _ => false
  | nb :: rest, yCursor =>
    if nb.1 = 0 then draw_ranks cols tileH rest yCursor
    else
      let res := draw_tiles_loop cols tileH nb.1 0 (yCursor - 15)
      if res.1 then true
      else
        let y2 := res.2 - (tileH : ℚ) - 10
        let y3 := if nb.2 then y2 - 10 else y2
        draw_ranks cols tileH rest y3

/-- Whether `write_ssl_pdf` reports overflow (`available_h = y_start -
margin`, render_pdf.py line 243). -/
def write_ssl_pdf_overflow (available_w y_start : ℚ) (counts : List (ℕ × Bool)) : Bool :=
  let available_h := y_start - 30
  let chosen := chosen_size available_w available_h counts
  draw_ranks (cols_for available_w chosen) (tile_h_for chosen) counts y_start

/-- Row resets performed by `draw_tiles_loop` for `n` tiles starting at
column `col`. -/
def resets_from (cols : ℕ) : ℕ → ℕ → ℕ
  | 0, _ => 0
  | n + 1, col => if col ≥ cols then 1 + resets_from cols n 1 else resets_from cols n (col + 1)

/-! ## Helper lemmas on Python string stripping -/

theorem mem_of_mem_rdropWhile {c : Char} {p : Char → Bool} {l : List Char}
    (h : c ∈ List.rdropWhile p l) : c ∈ l := by
  unfold List.rdropWhile at h
  rw [List.mem_reverse] at h
  have h2 := (List.dropWhile_suffix p (l := l.reverse)).sublist.mem h
  rwa [List.mem_reverse] at h2

theorem mem_of_mem_pyStripL {c : Char} {l : List Char} (h : c ∈ pyStripL l) :
    c ∈ l := by
  unfold pyStripL at h
  exact mem_of_mem_rdropWhile ((List.dropWhile_suffix pyWS).sublist.mem h)

theorem rdropWhile_pyStripL (l : List Char) :
    List.rdropWhile pyWS (pyStripL l) = pyStripL l := by
  unfold pyStripL
  rw [List.rdropWhile_eq_self_iff]
  intro hne
  have hm : List.rdropWhile pyWS l ≠ [] := by
    intro hnil
    rw [hnil] at hne
    simp [List.dropWhile] at hne
  obtain ⟨t, ht⟩ := List.dropWhile_suffix (l := List.rdropWhile pyWS l) pyWS
  have h1 : (List.rdropWhile pyWS l).getLast? =
      (List.dropWhile pyWS (List.rdropWhile pyWS l)).getLast? := by
    conv_lhs => rw [← ht]
    exact List.getLast?_append_of_ne_nil t hne
  rw [List.getLast?_eq_getLast_of_ne_nil hm, List.getLast?_eq_getLast_of_ne_nil hne] at h1
  have h2 := Option.some.inj h1
  rw [← h2]
  exact List.rdropWhile_last_not pyWS l hm

theorem pyStripL_idem (l : List Char) : pyStripL (pyStripL l) = pyStripL l := by
  conv_lhs => rw [pyStripL, rdropWhile_pyStripL]
  show List.dropWhile pyWS (pyStripL l) = pyStripL l
  rw [pyStripL, List.dropWhile_idempotent]

theorem normCore_no_comma {l : List Char} (h : ',' ∉ pyStripL l) :
    normCore l = pyStripL l := by
  unfold normCore
  rw [if_neg h]

theorem normCore_idem_of_no_comma {l : List Char} (h : ',' ∉ l) :
    normCore (normCore l) = normCore l := by
  have h1 : ',' ∉ pyStripL l := fun hm => h (mem_of_mem_pyStripL hm)
  have h2 : ',' ∉ pyStripL (pyStripL l) := by
    rw [pyStripL_idem]
    exact h1
  rw [normCore_no_comma h1, normCore_no_comma h2, pyStripL_idem]

/-! ## C10: display-name normalization splits at the first comma only -/

/-- C10 counterexample: the claim restricts idempotence to comma-free
inputs, but `"a,b"` contains a comma and is nevertheless a fixed point of a
second application: one application consumes the single comma. -/
theorem C10_counterexample :
    (',' ∈ "a,b".data)
    ∧ normalize_display_name "a,b" = "b a"
    ∧ normalize_display_name (normalize_display_name "a,b") = normalize_display_name "a,b" := by
  refine ⟨by decide, by decide, by decide⟩

/-- C10 (amended): normalization splits only at the first comma, so for an
input with two or more commas ("Doe, Jane, Jr.") the output keeps a comma
and a second application changes the string again; every input without a
comma is a fixed point after one application, and SOME inputs containing a
comma are fixed points too — for example "a,b", whose single comma the
first application consumes — so comma-freeness is sufficient for
idempotence but not necessary. (Not every one-comma input is a fixed
point: the unstripped f-string result can differ on degenerate inputs such
as ",b".) -/
theorem C10_display_name_amended :
    normalize_display_name "Doe, Jane, Jr." = "Jane, Jr. Doe"
    ∧ (',' ∈ (normalize_display_name "Doe, Jane, Jr.").data)
    ∧ normalize_display_name (normalize_display_name "Doe, Jane, Jr.") = "Jr. Doe Jane"
    ∧ normalize_display_name (normalize_display_name "Doe, Jane, Jr.")
        ≠ normalize_display_name "Doe, Jane, Jr."
    ∧ (',' ∈ "a,b".data)
    ∧ normalize_display_name (normalize_display_name "a,b") = normalize_display_name "a,b"
    ∧ (∀ s : String, ',' ∉ s.data →
        normalize_display_name (normalize_display_name s) = normalize_display_name s) := by
  refine ⟨by decide, by decide, by decide, by decide, by decide, by decide, ?_⟩
  intro s h
  simp only [normalize_display_name]
  exact congrArg String.mk (normCore_idem_of_no_comma h)

/-- C10 witness: the idempotence clause applied at the concrete comma-free
input `"John Smith"`. -/
theorem C10_witness :
    normalize_display_name (normalize_display_name "John Smith")
      = normalize_display_name "John Smith" :=
  C10_display_name_amended.2.2.2.2.2.2 "John Smith" (by decide)

/-! ## Status derivation lemmas and C1 -/

theorem coerce_bool_some (b : Bool) : _coerce_bool (some b) = b := by
  cases b <;> decide

theorem coerce_bool_none : _coerce_bool none = false := rfl

/-- C1: both status implementations (the renderers' `_status_from_row` on a
row without a precomputed status, and the mask chain of
`build_ssl_dataset`) realize the spec's precedence order
Normal < Unmapped < Missing-timesheet < Vacation < On-leave, highest
applicable wins; in particular vacation+unmapped gives Vacation (not
Unmapped), missing-timesheet+vacation gives Vacation, and no condition
gives Normal. -/
theorem C1_status_precedence :
    (∀ (ol il mt um : Bool) (q : ℚ),
      _status_from_row ⟨none, some ol, some il, some q, some mt, some um⟩
        = (specStatusOf (ol || il) (decide (q ≤ 0)) mt um).label)
    ∧ (∀ olb il mie um mt vac : Bool,
      excel_status um mt vac (excel_on_leave olb il mie)
        = (specStatusOf (excel_on_leave olb il mie) vac mt um).label)
    ∧ _status_from_row ⟨none, some false, some false, some 0, some false, some true⟩ = "Vacation"
    ∧ _status_from_row ⟨none, some false, some false, some 0, some true, some false⟩ = "Vacation"
    ∧ excel_status true false true false = "Vacation"
    ∧ excel_status false true true false = "Vacation"
    ∧ _status_from_row ⟨none, some false, some false, some 40, some false, some false⟩ = "Normal"
    ∧ excel_status false false false false = "Normal" := by
  refine ⟨?_, by decide, by decide, by decide, by decide, by decide, by decide, by decide⟩
  intro ol il mt um q
  by_cases hq : q ≤ 0 <;>
    cases ol <;> cases il <;> cases mt <;> cases um <;>
      simp [_status_from_row, statusOverride, coerce_bool_some, hq,
        specStatusOf, specApplicable, SpecStatus.label, SpecStatus.rank]

/-! ## Border encoding: C5 -/

/-- C5 counterexample: in the HTML renderer, a record with status
`"Unmapped"` gets NO utilization border (the claim says Normal or Unmapped
both do), and a ratio of exactly 0.75 is bucketed `"border-red"` (high),
not mid — the HTML bound is exclusive. -/
theorem C5_counterexample :
    _border_class "Unmapped" (.num (1/2)) = "border-none"
    ∧ _border_class "Normal" (.num (3/4)) = "border-red" := by
  refine ⟨by decide, by norm_num [_border_class, floatLt]⟩

/-- C5 (amended): the two renderers differ. HTML `_border_class` borders
only status Normal with buckets `< 0.25` low, `[0.25, 0.75)` mid, `≥ 0.75`
high; the PDF `draw_tile` borders exactly statuses Normal and Unmapped,
with `_util_color` buckets `< 0.25` low, `[0.25, 0.75]` mid (upper
inclusive), `> 0.75` high; non-Normal statuses get `"border-none"` in HTML. -/
theorem C5_border_amended :
    (∀ (s : String) (u : UtilVal), s ≠ "Normal" → _border_class s u = "border-none")
    ∧ (∀ q : ℚ, _border_class "Normal" (.num q)
        = if q < 1/4 then "border-green"
          else if q < 3/4 then "border-yellow" else "border-red")
    ∧ (∀ (s : String) (u : UtilVal),
        (draw_tile_border s u).isSome ↔ (s = "Normal" ∨ s = "Unmapped"))
    ∧ (∀ q : ℚ, _util_color (.num q)
        = if q < 1/4 then (0, 176/255, 80/255)
          else if q ≤ 3/4 then (1, 192/255, 0) else (1, 0, 0))
    ∧ _util_color (.num (3/4)) = (1, 192/255, 0)
    ∧ _util_color (.num (76/100)) = (1, 0, 0)
    ∧ _util_color (.num (1/4)) = (1, 192/255, 0)
    ∧ _border_class "Normal" (.num (1/4)) = "border-yellow" := by
  refine ⟨?_, ?_, ?_, ?_, by norm_num [_util_color, floatLt, floatLe],
    by norm_num [_util_color, floatLt, floatLe],
    by norm_num [_util_color, floatLt, floatLe],
    by norm_num [_border_class, floatLt]⟩
  · intro s u h
    simp [_border_class, h]
  · intro q
    by_cases h1 : q < 1/4 <;> by_cases h2 : q < 3/4 <;>
      simp [_border_class, floatLt, h1, h2]
  · intro s u
    by_cases h : s = "Normal" ∨ s = "Unmapped" <;> simp [draw_tile_border, h]
  · intro q
    by_cases h1 : q < 1/4 <;> by_cases h2 : q ≤ 3/4 <;>
      simp [_util_color, floatLt, floatLe, h1, h2]

/-- C5 witness: the non-Normal clause applied at status `"Vacation"`. -/
theorem C5_witness :
    _border_class "Vacation" (UtilVal.num 1) = "border-none" :=
  C5_border_amended.1 "Vacation" (UtilVal.num 1) (by decide)

/-! ## Row-level utilization: C9 -/

/-- C9 counterexample: available-hours −10 is ≤ 0, yet the row utilization
is the numeric value −1/2, not "no value": `replace(0, np.nan)` catches
only an exactly-zero denominator, and the record is flagged vacation while
still carrying a numeric utilization. -/
theorem C9_counterexample :
    ((-10 : ℚ) ≤ 0)
    ∧ row_util (-10) 5 = some (-(1/2))
    ∧ (enrich_flags_and_util ⟨"p1", -10, 5, 0, "", none, none⟩).util ≠ none
    ∧ (enrich_flags_and_util ⟨"p1", -10, 5, 0, "", none, none⟩).vacation = true := by
  refine ⟨by decide, by norm_num [row_util], ?_, by decide⟩
  simp [enrich_flags_and_util, row_util]

/-- C9 (amended): row utilization is chargeable/available whenever
available ≠ 0 — including negative available — and an explicit "no value"
(`none`, never 0, never an exception) exactly when available = 0. -/
theorem C9_row_util_amended :
    (∀ a c : ℚ, 0 < a → row_util a c = some (c / a))
    ∧ (∀ c : ℚ, row_util 0 c = none)
    ∧ (∀ a c : ℚ, a < 0 → row_util a c = some (c / a))
    ∧ (∀ r : EtlRow, (enrich_flags_and_util r).util
        = row_util r.effective_available_hours r.chargeable_hours) := by
  refine ⟨?_, ?_, ?_, ?_⟩
  · intro a c h
    rw [row_util, if_neg (ne_of_gt h)]
  · intro c
    rw [row_util, if_pos rfl]
  · intro a c h
    rw [row_util, if_neg (ne_of_lt h)]
  · intro r
    rfl

/-- C9 witness: the positive- and negative-denominator clauses at concrete
inputs. -/
theorem C9_witness :
    row_util 40 20 = some (20 / 40) ∧ row_util (-10) 5 = some (5 / (-10)) :=
  ⟨C9_row_util_amended.1 40 20 (by norm_num), C9_row_util_amended.2.2.1 (-10) 5 (by norm_num)⟩

/-! ## Aggregation lemmas, C2 and C7 -/

theorem agg_row_for_cons_ne (base : List AggRecord) (r : AggRecord)
    (k : Option String × Option String) (h : agg_key r ≠ k) :
    agg_row_for (r :: base) k = agg_row_for base k := by
  simp [agg_row_for, List.filter_cons, h]

theorem compute_aggregates_keys (rs : List AggRecord)
    (k : Option String × Option String) :
    k ∈ (compute_aggregates rs).map (fun a => (a.bu, a.ssl))
      ↔ ∃ r ∈ rs, r.vacation = false ∧ agg_key r = k := by
  unfold compute_aggregates
  rw [List.map_map]
  have hcomp : ((fun a : AggRow => (a.bu, a.ssl)) ∘
      agg_row_for (rs.filter (fun r => !r.vacation)))
      = id := by
    funext j
    rfl
  rw [hcomp, List.map_id]
  rw [List.mem_dedup, List.mem_map]
  constructor
  · rintro ⟨r, hr, hk⟩
    rw [List.mem_filter] at hr
    exact ⟨r, hr.1, by simpa using hr.2, hk⟩
  · rintro ⟨r, hr, hv, hk⟩
    exact ⟨r, List.mem_filter.mpr ⟨hr, by simpa using hv⟩, hk⟩

/-- C2: for every output row of `compute_aggregates`, `util_all` is the
chargeable/available ratio summed over the row's non-vacation records
(missing-timesheet included) and `util_excl_missing` the same ratio
additionally excluding missing-timesheet records, a zero denominator giving
"no value"; a vacation record contributes to no sum; and the spec's
concrete example evaluates to 0.75 and 1.0. -/
theorem C2_aggregates :
    (∀ (rs : List AggRecord) (row : AggRow), row ∈ compute_aggregates rs →
      row.total_chargeable
          = sum_charge ((rs.filter (fun r => !r.vacation)).filter
              (fun r => decide (agg_key r = (row.bu, row.ssl))))
        ∧ row.total_available
          = sum_avail ((rs.filter (fun r => !r.vacation)).filter
              (fun r => decide (agg_key r = (row.bu, row.ssl))))
        ∧ row.util_all
          = (if sum_avail ((rs.filter (fun r => !r.vacation)).filter
                  (fun r => decide (agg_key r = (row.bu, row.ssl)))) = 0 then none
             else some (sum_charge ((rs.filter (fun r => !r.vacation)).filter
                  (fun r => decide (agg_key r = (row.bu, row.ssl))))
                / sum_avail ((rs.filter (fun r => !r.vacation)).filter
                  (fun r => decide (agg_key r = (row.bu, row.ssl))))))
        ∧ row.util_excl_missing
          = (if (((rs.filter (fun r => !r.vacation)).filter
                  (fun r => decide (agg_key r = (row.bu, row.ssl)))).filter
                  (fun r => !r.missing_timesheet)).isEmpty then none
             else if sum_avail (((rs.filter (fun r => !r.vacation)).filter
                  (fun r => decide (agg_key r = (row.bu, row.ssl)))).filter
                  (fun r => !r.missing_timesheet)) = 0 then none
             else some (sum_charge (((rs.filter (fun r => !r.vacation)).filter
                  (fun r => decide (agg_key r = (row.bu, row.ssl)))).filter
                  (fun r => !r.missing_timesheet))
                / sum_avail (((rs.filter (fun r => !r.vacation)).filter
                  (fun r => decide (agg_key r = (row.bu, row.ssl)))).filter
                  (fun r => !r.missing_timesheet)))))
    ∧ (∀ (g : String) (bu ssl : Option String) (c a : ℚ) (mt : Bool)
        (rs : List AggRecord),
        compute_aggregates (⟨g, bu, ssl, c, a, mt, true⟩ :: rs) = compute_aggregates rs)
    ∧ ((compute_aggregates
          [⟨"p1", some "B", some "S", 20, 40, true, false⟩,
           ⟨"p2", some "B", some "S", 40, 40, false, false⟩,
           ⟨"p3", some "B", some "S", 999, 0, false, true⟩]).map
            (fun a => (a.util_all, a.util_excl_missing))
        = [(some (3/4), some 1)]) := by
  refine ⟨?_, ?_, ?_⟩
  · intro rs row hrow
    unfold compute_aggregates at hrow
    rw [List.mem_map] at hrow
    obtain ⟨k, hk, hrk⟩ := hrow
    subst hrk
    refine ⟨rfl, rfl, rfl, rfl⟩
  · intro g bu ssl c a mt rs
    unfold compute_aggregates
    simp [List.filter_cons]
  · norm_num [compute_aggregates, agg_row_for, agg_key, sum_charge, sum_avail,
      List.filter_cons, List.dedup_cons_of_mem, List.dedup_cons_of_not_mem]

/-- C2 witness: the ratio characterization applied to the one output row of
a concrete single-record run. -/
theorem C2_witness :
    (agg_row_for [⟨"p2", some "B", some "S", 40, 40, false, false⟩]
        (some "B", some "S")).util_all
      = some (40 / 40) := by
  have hmem : agg_row_for [⟨"p2", some "B", some "S", 40, 40, false, false⟩]
      (some "B", some "S")
      ∈ compute_aggregates [⟨"p2", some "B", some "S", 40, 40, false, false⟩] := by
    simp [compute_aggregates, agg_key, List.filter_cons]
  have h := (C2_aggregates.1
      [⟨"p2", some "B", some "S", 40, 40, false, false⟩] _ hmem).2.2.1
  rw [h]
  norm_num [agg_row_for, agg_key, sum_charge, sum_avail, List.filter_cons]

/-- C7 counterexample: a single unmapped (null BU/SSL), non-vacation record
DOES produce an aggregate group — `groupby(..., dropna=False)` keeps null
keys — contradicting "no AggregateTotals group is produced for unmapped
records". -/
theorem C7_counterexample :
    (compute_aggregates [⟨"p1", none, none, 20, 40, false, false⟩]).map
        (fun a => (a.bu, a.ssl, a.total_chargeable, a.headcount))
      = [(none, none, 20, 1)] := by
  norm_num [compute_aggregates, agg_row_for, agg_key, sum_charge, sum_avail,
    List.filter_cons]

/-- C7 (amended): unmapped records are not dropped — they aggregate under
their own null-key group (present exactly when a non-vacation unmapped
record exists) — but they contribute to no mapped unit's totals: a record
contributes only to the group of its own key, and every group key present
comes from some non-vacation record with that key. -/
theorem C7_unmapped_amended :
    (∀ (base : List AggRecord) (r : AggRecord) (k : Option String × Option String),
      agg_key r ≠ k → agg_row_for (r :: base) k = agg_row_for base k)
    ∧ (∀ (rs : List AggRecord) (k : Option String × Option String),
        k ∈ (compute_aggregates rs).map (fun a => (a.bu, a.ssl))
          ↔ ∃ r ∈ rs, r.vacation = false ∧ agg_key r = k)
    ∧ (∀ rs : List AggRecord,
        (none, none) ∈ (compute_aggregates rs).map (fun a => (a.bu, a.ssl))
          ↔ ∃ r ∈ rs, r.vacation = false ∧ r.bu = none ∧ r.ssl = none) := by
  refine ⟨agg_row_for_cons_ne, compute_aggregates_keys, ?_⟩
  intro rs
  rw [compute_aggregates_keys]
  constructor
  · rintro ⟨r, hr, hv, hk⟩
    rw [agg_key, Prod.mk.injEq] at hk
    exact ⟨r, hr, hv, hk.1, hk.2⟩
  · rintro ⟨r, hr, hv, h1, h2⟩
    exact ⟨r, hr, hv, by rw [agg_key, h1, h2]⟩

/-- C7 witness: an unmapped record leaves a mapped unit's aggregate row
unchanged, at concrete inputs. -/
theorem C7_witness :
    agg_row_for
        [⟨"u1", none, none, 20, 40, false, false⟩,
         ⟨"p2", some "B", some "S", 40, 40, false, false⟩]
        (some "B", some "S")
      = agg_row_for [⟨"p2", some "B", some "S", 40, 40, false, false⟩]
        (some "B", some "S") :=
  C7_unmapped_amended.1 _ _ _ (by decide)

/-! ## Competency lookup lemmas and C6 -/

theorem foldl_flatMap {α β γ : Type} (f : β → γ → β) (g : α → List γ)
    (l : List α) (init : β) :
    (l.flatMap g).foldl f init = l.foldl (fun acc x => (g x).foldl f acc) init := by
  induction l generalizing init with
  | nil => rfl
  | cons a t ih => simp [List.flatMap_cons, List.foldl_append, ih]

theorem lookup_foldl_eq (ds : List (String × String × String)) (q : String) :
    ∀ acc : String → Option (String × String),
    (ds.foldl (fun a d => fun x => if x = d.1 then some d.2 else a x) acc) q
      = match ds.reverse.find? (fun d => decide (d.1 = q)) with
        | some d => some d.2
        | none => acc q := by
  induction ds with
  | nil => intro acc; rfl
  | cons d t ih =>
    intro acc
    rw [List.foldl_cons, ih, List.reverse_cons, List.find?_append]
    cases hf : t.reverse.find? (fun d => decide (d.1 = q)) with
    | some e => simp [Option.or]
    | none =>
      simp only [Option.or]
      by_cases hq : d.1 = q
      · simp [List.find?_cons, hq]
      · have hq2 : ¬(q = d.1) := fun h => hq h.symm
        simp [List.find?_cons, hq, hq2]

/-- C6 counterexample: a configuration declaring competency area `"CA1"`
under two different (BU, SSL) targets does NOT fail — there is no
ConfigError anywhere in the code — and record mapping proceeds, silently
resolving to the later declaration. -/
theorem C6_counterexample :
    map_competency_to_ssl [("BU1", [("SSL_A", ["CA1"]), ("SSL_B", ["CA1"])])] "CA1"
      = (some "BU1", some "SSL_B", false) := by
  decide

/-- C6 (amended): building the lookup is total and never raises on a
duplicate category: the dict-assignment build makes a category declared
several times resolve to its LAST declaration in configuration order
(later silently overwrites earlier), and mapping proceeds with that
target. -/
theorem C6_duplicate_category_amended :
    (∀ (cfg : List (String × List (String × List String))) (ca : String),
      competency_lookup cfg ca = last_decl cfg ca)
    ∧ competency_lookup [("BU1", [("SSL_A", ["CA1"]), ("SSL_B", ["CA1"])])] "CA1"
        = some ("BU1", "SSL_B") := by
  refine ⟨?_, by decide⟩
  intro cfg ca
  have h : (org_decls cfg).foldl
      (fun a d => fun x => if x = d.1 then some d.2 else a x)
      (fun _ => none)
      = competency_lookup cfg := by
    unfold org_decls competency_lookup
    rw [foldl_flatMap]
    simp only [foldl_flatMap, List.foldl_map]
  rw [← h, lookup_foldl_eq]
  unfold last_decl
  cases (org_decls cfg).reverse.find? (fun d => decide (d.1 = ca)) with
  | none => rfl
  | some d => rfl

/-! ## Layout sizing engine lemmas and C4 -/

theorem tile_h_nonneg {s : ℤ} (h : 0 ≤ s) : 0 ≤ tile_h_for s := by
  unfold tile_h_for name_h_for util_h_for
  split_ifs <;> linarith

theorem cols_pos (aw : ℚ) (s : ℤ) : 0 < cols_for aw s :=
  Nat.lt_of_lt_of_le Nat.zero_lt_one (le_max_left _ _)

theorem rank_block_height_nonneg {tileH : ℤ} (hT : 0 ≤ tileH) {cols : ℕ}
    (hc : 0 < cols) (n : ℕ) (b : Bool) : 0 ≤ rank_block_height tileH cols n b := by
  unfold rank_block_height
  by_cases hn : n = 0
  · simp [hn]
  · rw [if_neg hn]
    have hrows : 1 ≤ (n + cols - 1) / cols := by
      rw [Nat.le_div_iff_mul_le hc]
      omega
    have hrz : (1:ℤ) ≤ ((n + cols - 1) / cols : ℕ) := by exact_mod_cast hrows
    have hmul : (0:ℤ) ≤ (((n + cols - 1) / cols : ℕ) : ℤ) * tileH :=
      mul_nonneg (by linarith) hT
    dsimp only
    split_ifs <;> linarith

theorem draw_tiles_loop_no_overflow (cols : ℕ) (tileH : ℤ) (hT : 0 ≤ tileH) :
    ∀ (n col : ℕ) (rowTop : ℚ),
      30 + ((resets_from cols n col : ℚ) * ((tileH : ℚ) + 8) + (tileH : ℚ)) ≤ rowTop →
      draw_tiles_loop cols tileH n col rowTop
        = (false, rowTop - (resets_from cols n col : ℚ) * ((tileH : ℚ) + 8)) := by
  intro n
  induction n with
  | zero =>
    intro col rowTop h
    simp [draw_tiles_loop, resets_from]
  | succ m ih =>
    intro col rowTop h
    have hT' : (0:ℚ) ≤ (tileH : ℚ) := by exact_mod_cast hT
    have hstep : (0:ℚ) ≤ (tileH : ℚ) + 8 := by linarith
    by_cases hc : col ≥ cols
    · have hr : resets_from cols (m + 1) col = 1 + resets_from cols m 1 := by
        simp only [resets_from]
        rw [if_pos hc]
      rw [hr] at h
      have hres : (0:ℚ) ≤ (resets_from cols m 1 : ℚ) * ((tileH : ℚ) + 8) :=
        mul_nonneg (by positivity) hstep
      have h' : 30 + (((tileH : ℚ) + 8)
            + (resets_from cols m 1 : ℚ) * ((tileH : ℚ) + 8) + (tileH : ℚ)) ≤ rowTop := by
        push_cast at h
        have hexp : (1 + (resets_from cols m 1 : ℚ)) * ((tileH : ℚ) + 8)
            = ((tileH : ℚ) + 8) + (resets_from cols m 1 : ℚ) * ((tileH : ℚ) + 8) := by
          ring
        rw [hexp] at h
        linarith
      have hcheck : ¬ (rowTop - ((tileH : ℚ) + 8) - (tileH : ℚ) < 30) := by
        push_neg
        linarith
      have hrec : 30 + ((resets_from cols m 1 : ℚ) * ((tileH : ℚ) + 8) + (tileH : ℚ))
          ≤ rowTop - ((tileH : ℚ) + 8) := by
        linarith
      have hgoal1 : draw_tiles_loop cols tileH (m + 1) col rowTop
          = draw_tiles_loop cols tileH m 1 (rowTop - ((tileH : ℚ) + 8)) := by
        simp only [draw_tiles_loop, hc, ite_true, if_true, hcheck, ite_false, if_false,
          Nat.zero_add]
      rw [hgoal1, ih 1 (rowTop - ((tileH : ℚ) + 8)) hrec, hr]
      have heq : rowTop - ((tileH : ℚ) + 8)
            - (resets_from cols m 1 : ℚ) * ((tileH : ℚ) + 8)
          = rowTop - ((1 + resets_from cols m 1 : ℕ) : ℚ) * ((tileH : ℚ) + 8) := by
        push_cast
        ring
      rw [heq]
    · have hr : resets_from cols (m + 1) col = resets_from cols m (col + 1) := by
        simp only [resets_from]
        rw [if_neg hc]
      rw [hr] at h
      have hres : (0:ℚ) ≤ (resets_from cols m (col + 1) : ℚ) * ((tileH : ℚ) + 8) :=
        mul_nonneg (by positivity) hstep
      have hcheck : ¬ (rowTop - (tileH : ℚ) < 30) := by
        push_neg
        linarith
      have hgoal1 : draw_tiles_loop cols tileH (m + 1) col rowTop
          = draw_tiles_loop cols tileH m (col + 1) rowTop := by
        simp only [draw_tiles_loop, hc, ite_true, if_true, hcheck, ite_false, if_false]
      rw [hgoal1, ih (col + 1) rowTop h, hr]

theorem resets_from_eq (cols : ℕ) (hc : 0 < cols) :
    ∀ (n col : ℕ), 1 ≤ col → col ≤ cols →
      resets_from cols n col = (n + col - 1) / cols := by
  intro n
  induction n with
  | zero =>
    intro col h1 h2
    simp only [resets_from]
    symm
    apply Nat.div_eq_of_lt
    omega
  | succ m ih =>
    intro col h1 h2
    simp only [resets_from]
    by_cases hcc : col ≥ cols
    · have hcol : col = cols := le_antisymm h2 hcc
      rw [if_pos hcc, ih 1 le_rfl hc]
      subst hcol
      have e1 : m + 1 - 1 = m := by omega
      have e2 : m + 1 + col - 1 = m + col := by omega
      rw [e1, e2, Nat.add_div_right m hc]
      omega
    · rw [if_neg hcc, ih (col + 1) (by omega) (by omega)]
      congr 1
      omega

theorem resets_from_zero (cols : ℕ) (hc : 0 < cols) (m : ℕ) :
    resets_from cols (m + 1) 0 = m / cols := by
  simp only [resets_from]
  rw [if_neg (by omega : ¬ (0 ≥ cols)), resets_from_eq cols hc m 1 le_rfl hc]
  congr 1

theorem rows_eq_resets (cols : ℕ) (hc : 0 < cols) (m : ℕ) :
    (m + 1 + cols - 1) / cols = resets_from cols (m + 1) 0 + 1 := by
  rw [resets_from_zero cols hc m]
  have e : m + 1 + cols - 1 = m + cols := by omega
  rw [e, Nat.add_div_right m hc]

theorem draw_ranks_no_overflow (cols : ℕ) (tileH : ℤ) (hc : 0 < cols) (hT : 0 ≤ tileH) :
    ∀ (counts : List (ℕ × Bool)) (yCursor : ℚ),
      (((counts.map (fun nb => rank_block_height tileH cols nb.1 nb.2)).sum : ℤ) : ℚ)
          ≤ yCursor - 30 →
      draw_ranks cols tileH counts yCursor = false := by
  intro counts
  induction counts with
  | nil =>
    intro y h
    rfl
  | cons nb rest ih =>
    intro y h
    rcases nb with ⟨n, sp⟩
    rw [List.map_cons, List.sum_cons] at h
    have hrest : (0:ℤ) ≤ (rest.map (fun nb => rank_block_height tileH cols nb.1 nb.2)).sum :=
      List.sum_nonneg (by
        intro x hx
        rw [List.mem_map] at hx
        obtain ⟨nb2, _, hx2⟩ := hx
        rw [← hx2]
        exact rank_block_height_nonneg hT hc nb2.1 nb2.2)
    by_cases hn : n = 0
    · subst hn
      have hz : rank_block_height tileH cols 0 sp = 0 := by simp [rank_block_height]
      rw [hz] at h
      have hgoal : draw_ranks cols tileH ((0, sp) :: rest) y = draw_ranks cols tileH rest y := by
        simp only [draw_ranks, ite_true, if_true]
      rw [hgoal]
      apply ih
      push_cast at h ⊢
      linarith
    · obtain ⟨m, rfl⟩ : ∃ m, n = m + 1 := ⟨n - 1, by omega⟩
      set R := resets_from cols (m + 1) 0 with hRdef
      have hhead : rank_block_height tileH cols (m + 1) sp
          = 15 + ((R : ℤ) + 1) * tileH + (R : ℤ) * 8 + 10 + (if sp then 10 else 0) + 4 := by
        unfold rank_block_height
        rw [if_neg hn]
        dsimp only
        rw [rows_eq_resets cols hc m]
        push_cast
        ring
      rw [hhead] at h
      have hsp0 : (0:ℤ) ≤ (if sp then (10:ℤ) else 0) := by split_ifs <;> norm_num
      have hT' : (0:ℚ) ≤ (tileH : ℚ) := by exact_mod_cast hT
      have hR0 : (0:ℚ) ≤ (R : ℚ) := by positivity
      have hprod : (0:ℚ) ≤ (R : ℚ) * ((tileH : ℚ) + 8) := mul_nonneg hR0 (by linarith)
      have hrestQ : (0:ℚ) ≤ ((rest.map (fun nb => rank_block_height tileH cols nb.1 nb.2)).sum : ℚ) := by
        exact_mod_cast hrest
      have hspQ : (0:ℚ) ≤ (if sp then (10:ℚ) else 0) := by split_ifs <;> norm_num
      have hcast : (((15 + ((R : ℤ) + 1) * tileH + (R : ℤ) * 8 + 10 + (if sp then 10 else 0) + 4
            + (rest.map (fun nb => rank_block_height tileH cols nb.1 nb.2)).sum : ℤ)) : ℚ)
          = 15 + ((R : ℚ) + 1) * (tileH : ℚ) + (R : ℚ) * 8 + 10 + (if sp then (10:ℚ) else 0) + 4
            + ((rest.map (fun nb => rank_block_height tileH cols nb.1 nb.2)).sum : ℚ) := by
        push_cast
        split_ifs <;> ring
      rw [hcast] at h
      have hexp : ((R : ℚ) + 1) * (tileH : ℚ) = (R : ℚ) * (tileH : ℚ) + (tileH : ℚ) := by ring
      rw [hexp] at h
      have hloopc : 30 + ((R : ℚ) * ((tileH : ℚ) + 8) + (tileH : ℚ)) ≤ y - 15 := by
        have hx : (R : ℚ) * ((tileH : ℚ) + 8) = (R : ℚ) * (tileH : ℚ) + (R : ℚ) * 8 := by ring
        rw [hx]
        linarith
      have hloop := draw_tiles_loop_no_overflow cols tileH hT (m + 1) 0 (y - 15) hloopc
      have hgoal : draw_ranks cols tileH ((m + 1, sp) :: rest) y
          = draw_ranks cols tileH rest
              (if sp then (y - 15 - (R : ℚ) * ((tileH : ℚ) + 8) - (tileH : ℚ) - 10) - 10
               else (y - 15 - (R : ℚ) * ((tileH : ℚ) + 8) - (tileH : ℚ) - 10)) := by
        simp only [draw_ranks, hn, ite_false, if_false, hloop, ite_true, if_true]
        cases sp <;> simp
      rw [hgoal]
      apply ih
      have hx2 : (R : ℚ) * ((tileH : ℚ) + 8) = (R : ℚ) * (tileH : ℚ) + (R : ℚ) * 8 := by ring
      simp only [hx2]
      cases sp
      · simp at h ⊢
        linarith
      · simp at h ⊢
        linarith

theorem find?_descending_max {p : ℤ → Bool} :
    ∀ (l : List ℤ), List.Pairwise (fun a b => b < a) l →
      ∀ a, l.find? p = some a → ∀ s ∈ l, p s = true → s ≤ a := by
  intro l
  induction l with
  | nil =>
    intro _ a ha
    simp at ha
  | cons x t ih =>
    intro hp a ha s hs hps
    rw [List.find?_cons] at ha
    by_cases hx : p x
    · rw [hx] at ha
      have hax : x = a := Option.some.inj ha
      rcases List.mem_cons.mp hs with h1 | h2
      · rw [h1, hax]
      · have := (List.pairwise_cons.mp hp).1 s h2
        linarith [hax ▸ this]
    · have hx2 : p x = false := by simpa using hx
      rw [hx2] at ha
      rcases List.mem_cons.mp hs with h1 | h2
      · rw [h1] at hps
        exact absurd hps hx
      · exact ih (List.pairwise_cons.mp hp).2 a ha s h2 hps

theorem chosen_size_mem_fits (aw ah : ℚ) (counts : List (ℕ × Bool))
    (hex : ∃ s ∈ pdf_sizes, (required_height aw counts s : ℚ) ≤ ah) :
    chosen_size aw ah counts ∈ pdf_sizes
    ∧ ((required_height aw counts (chosen_size aw ah counts) : ℚ) ≤ ah) := by
  obtain ⟨s0, hs0, hfit⟩ := hex
  unfold chosen_size
  cases hf : pdf_sizes.find? (fun s => decide ((required_height aw counts s : ℚ) ≤ ah)) with
  | none =>
    rw [List.find?_eq_none] at hf
    exact absurd (by simpa using hfit) (by simpa using hf s0 hs0)
  | some a =>
    have hmem := List.mem_of_find?_eq_some hf
    have hp := List.find?_some hf
    exact ⟨by simpa using hmem, by simpa using hp⟩

/-- C4: the sizing engine tries the candidate list (strictly descending) in
order and accepts the first fitting size — which is therefore the largest
fitting candidate; when no candidate fits it falls back to 34, the smallest
candidate; and it never reports overflow when some candidate fits: the
drawing loop stays above the bottom margin whenever the chosen size's
required height fits the usable height `y_start - margin`. -/
theorem C4_layout_engine :
    List.Pairwise (fun a b : ℤ => b < a) pdf_sizes
    ∧ (∀ (aw ah : ℚ) (counts : List (ℕ × Bool)),
        (∃ s ∈ pdf_sizes, (required_height aw counts s : ℚ) ≤ ah) →
          chosen_size aw ah counts ∈ pdf_sizes
          ∧ ((required_height aw counts (chosen_size aw ah counts) : ℚ) ≤ ah)
          ∧ (∀ s ∈ pdf_sizes, (required_height aw counts s : ℚ) ≤ ah →
              s ≤ chosen_size aw ah counts))
    ∧ (∀ (aw ah : ℚ) (counts : List (ℕ × Bool)),
        (∀ s ∈ pdf_sizes, ¬ ((required_height aw counts s : ℚ) ≤ ah)) →
          chosen_size aw ah counts = 34 ∧ ∀ s ∈ pdf_sizes, (34:ℤ) ≤ s)
    ∧ (∀ (aw y_start : ℚ) (counts : List (ℕ × Bool)),
        (∃ s ∈ pdf_sizes, (required_height aw counts s : ℚ) ≤ y_start - 30) →
          write_ssl_pdf_overflow aw y_start counts = false) := by
  refine ⟨by decide, ?_, ?_, ?_⟩
  · intro aw ah counts hex
    obtain ⟨hmem, hfit⟩ := chosen_size_mem_fits aw ah counts hex
    refine ⟨hmem, hfit, ?_⟩
    intro s hs hsfit
    cases hf : pdf_sizes.find? (fun s => decide ((required_height aw counts s : ℚ) ≤ ah)) with
    | none =>
      obtain ⟨s0, hs0, h0⟩ := hex
      rw [List.find?_eq_none] at hf
      exact absurd (by simpa using h0) (by simpa using hf s0 hs0)
    | some a =>
      have hca : chosen_size aw ah counts = a := by
        unfold chosen_size
        rw [hf]
        rfl
      rw [hca]
      exact find?_descending_max pdf_sizes (by decide) a hf s hs (by simpa using hsfit)
  · intro aw ah counts hall
    refine ⟨?_, by decide⟩
    unfold chosen_size
    cases hf : pdf_sizes.find? (fun s => decide ((required_height aw counts s : ℚ) ≤ ah)) with
    | none => rfl
    | some a =>
      exact absurd (by simpa using List.find?_some hf)
        (hall a (List.mem_of_find?_eq_some hf))
  · intro aw ys counts hex
    obtain ⟨hmem, hfit⟩ := chosen_size_mem_fits aw (ys - 30) counts hex
    show draw_ranks (cols_for aw (chosen_size aw (ys - 30) counts))
        (tile_h_for (chosen_size aw (ys - 30) counts)) counts ys = false
    apply draw_ranks_no_overflow
    · exact cols_pos aw _
    · apply tile_h_nonneg
      have h34 : ∀ s ∈ pdf_sizes, (34:ℤ) ≤ s := by decide
      linarith [h34 _ hmem]
    · exact hfit

/-- C4 witness: with no rank sections, every candidate fits and no overflow
is reported. -/
theorem C4_witness :
    write_ssl_pdf_overflow 780 600 [] = false :=
  C4_layout_engine.2.2.2 780 600 [] ⟨90, by decide, by norm_num [required_height]⟩

/-! ## Loader lemmas, C3 and C8 -/

theorem colIdx_eq_none {df : DataFrame} {c : String} (h : c ∉ df.cols) :
    colIdx df c = none := by
  unfold colIdx List.indexOf?
  rw [List.findIdx?_eq_none_iff]
  intro x hx
  simp only [beq_eq_false_iff_ne, ne_eq]
  exact fun he => h (he ▸ hx)

theorem colIdx_exists_of_mem {df : DataFrame} {c : String} (h : c ∈ df.cols) :
    ∃ i, colIdx df c = some i := by
  have hsome : (colIdx df c).isSome = true := by
    unfold colIdx List.indexOf?
    rw [List.findIdx?_isSome, List.any_eq_true]
    exact ⟨c, h, by simp⟩
  exact Option.isSome_iff_exists.mp hsome

theorem mapCol_cols (df : DataFrame) (c : String) (f : PValue → PValue) :
    (mapCol df c f).cols = df.cols := by
  unfold mapCol
  cases colIdx df c <;> rfl

theorem truncate_cols (df : DataFrame) : (truncate_at_total df).cols = df.cols := by
  unfold truncate_at_total
  split
  · rfl
  · split <;> rfl

theorem drop_cols (df : DataFrame) : (drop_null_gpn df).cols = df.cols := by
  unfold drop_null_gpn
  cases colIdx df "GPN" <;> rfl

theorem astypeStrStrip_err {df : DataFrame} {c : String} (h : c ∉ df.cols) :
    astypeStrStrip df c = .error (String.append "KeyError: " c) := by
  unfold astypeStrStrip
  rw [colIdx_eq_none h]

theorem astypeStrStrip_ok {df : DataFrame} {c : String} (h : c ∈ df.cols) :
    astypeStrStrip df c = .ok (mapCol df c (fun v => .str (pyStrip (pyStr v)))) := by
  obtain ⟨i, hi⟩ := colIdx_exists_of_mem h
  unfold astypeStrStrip
  rw [hi]

theorem setColFrom_ok {df : DataFrame} {src : String} (dst : String)
    (f : PValue → PValue) (h : src ∈ df.cols) :
    ∃ df2, setColFrom df dst src f = .ok df2
      ∧ (df2.cols = df.cols ∨ df2.cols = df.cols ++ [dst]) := by
  obtain ⟨j, hj⟩ := colIdx_exists_of_mem h
  unfold setColFrom
  rw [hj]
  cases hd : colIdx df dst with
  | some i => exact ⟨_, rfl, Or.inl rfl⟩
  | none => exact ⟨_, rfl, Or.inr rfl⟩

theorem setColConst_cols (df : DataFrame) (c : String) (v : PValue) :
    (setColConst df c v).cols = df.cols
      ∨ (setColConst df c v).cols = df.cols ++ [c] := by
  unfold setColConst
  cases colIdx df c with
  | some i => exact Or.inl rfl
  | none => exact Or.inr rfl

theorem mt_stage_ok_of_absent {df : DataFrame} (h : "Missing Timesheets" ∉ df.cols) :
    mt_stage df = .ok (setColConst df "Missing Timesheets" (.num 0)) := by
  unfold mt_stage
  rw [colIdx_eq_none h]

theorem except_bind_ok {α β : Type} (a : α) (f : α → Except String β) :
    (Except.ok a >>= f) = f a := rfl

theorem load_err_gpn {df : DataFrame} (h : "GPN" ∉ df.cols.map pyStrip) :
    load_powerbi_export df = .error "KeyError: GPN" := by
  simp only [load_powerbi_export]
  have hc : "GPN" ∉ (drop_null_gpn (truncate_at_total
      { cols := df.cols.map pyStrip, rows := df.rows })).cols := by
    rw [drop_cols, truncate_cols]
    exact h
  rw [astypeStrStrip_err hc]
  rfl

theorem load_err_emp {df : DataFrame} (hg : "GPN" ∈ df.cols.map pyStrip)
    (he : "Employee Name" ∉ df.cols.map pyStrip) :
    load_powerbi_export df = .error "KeyError: Employee Name" := by
  simp only [load_powerbi_export]
  have h3 : "GPN" ∈ (drop_null_gpn (truncate_at_total
      { cols := df.cols.map pyStrip, rows := df.rows })).cols := by
    rw [drop_cols, truncate_cols]
    exact hg
  rw [astypeStrStrip_ok h3]
  simp only [except_bind_ok]
  have h4 : "Employee Name" ∉ (mapCol (drop_null_gpn (truncate_at_total
      { cols := df.cols.map pyStrip, rows := df.rows })) "GPN"
      (fun v => .str (pyStrip (pyStr v)))).cols := by
    rw [mapCol_cols, drop_cols, truncate_cols]
    exact he
  rw [astypeStrStrip_err h4]
  rfl

theorem load_err_comp {df : DataFrame} (hg : "GPN" ∈ df.cols.map pyStrip)
    (he : "Employee Name" ∈ df.cols.map pyStrip)
    (hcm : "Competency" ∉ df.cols.map pyStrip) :
    load_powerbi_export df = .error "KeyError: Competency" := by
  simp only [load_powerbi_export]
  have h3 : "GPN" ∈ (drop_null_gpn (truncate_at_total
      { cols := df.cols.map pyStrip, rows := df.rows })).cols := by
    rw [drop_cols, truncate_cols]
    exact hg
  rw [astypeStrStrip_ok h3]
  simp only [except_bind_ok]
  have h4 : "Employee Name" ∈ (mapCol (drop_null_gpn (truncate_at_total
      { cols := df.cols.map pyStrip, rows := df.rows })) "GPN"
      (fun v => .str (pyStrip (pyStr v)))).cols := by
    rw [mapCol_cols, drop_cols, truncate_cols]
    exact he
  rw [astypeStrStrip_ok h4]
  simp only [except_bind_ok]
  have h5 : "Employee Name" ∈ (mapCol (mapCol (drop_null_gpn (truncate_at_total
      { cols := df.cols.map pyStrip, rows := df.rows })) "GPN"
      (fun v => .str (pyStrip (pyStr v)))) "Employee Name"
      (fun v => .str (pyStrip (pyStr v)))).cols := by
    rw [mapCol_cols, mapCol_cols, drop_cols, truncate_cols]
    exact he
  obtain ⟨df6, h6eq, h6cols⟩ := setColFrom_ok "display_name_auto"
    (fun v => .str (normalize_display_name (pyStr v))) h5
  rw [h6eq]
  simp only [except_bind_ok]
  have h7 : "Competency" ∉ df6.cols := by
    rw [mapCol_cols, mapCol_cols, drop_cols, truncate_cols] at h6cols
    rcases h6cols with hc | hc <;> rw [hc]
    · exact hcm
    · intro hmem
      rcases List.mem_append.mp hmem with hmm | hmm
      · exact hcm hmm
      · simp at hmm
  rw [astypeStrStrip_err h7]
  rfl

theorem load_ok_of_required {df : DataFrame}
    (hg : "GPN" ∈ df.cols.map pyStrip)
    (he : "Employee Name" ∈ df.cols.map pyStrip)
    (hcm : "Competency" ∈ df.cols.map pyStrip)
    (hmt : "Missing Timesheets" ∉ df.cols.map pyStrip) :
    ∃ out, load_powerbi_export df = .ok out := by
  simp only [load_powerbi_export]
  have h3 : "GPN" ∈ (drop_null_gpn (truncate_at_total
      { cols := df.cols.map pyStrip, rows := df.rows })).cols := by
    rw [drop_cols, truncate_cols]
    exact hg
  rw [astypeStrStrip_ok h3]
  simp only [except_bind_ok]
  have h4 : "Employee Name" ∈ (mapCol (drop_null_gpn (truncate_at_total
      { cols := df.cols.map pyStrip, rows := df.rows })) "GPN"
      (fun v => .str (pyStrip (pyStr v)))).cols := by
    rw [mapCol_cols, drop_cols, truncate_cols]
    exact he
  rw [astypeStrStrip_ok h4]
  simp only [except_bind_ok]
  have h5 : "Employee Name" ∈ (mapCol (mapCol (drop_null_gpn (truncate_at_total
      { cols := df.cols.map pyStrip, rows := df.rows })) "GPN"
      (fun v => .str (pyStrip (pyStr v)))) "Employee Name"
      (fun v => .str (pyStrip (pyStr v)))).cols := by
    rw [mapCol_cols, mapCol_cols, drop_cols, truncate_cols]
    exact he
  obtain ⟨df6, h6eq, h6cols⟩ := setColFrom_ok "display_name_auto"
    (fun v => .str (normalize_display_name (pyStr v))) h5
  rw [h6eq]
  simp only [except_bind_ok]
  rw [mapCol_cols, mapCol_cols, drop_cols, truncate_cols] at h6cols
  have h7 : "Competency" ∈ df6.cols := by
    rcases h6cols with hc | hc <;> rw [hc]
    · exact hcm
    · exact List.mem_append.mpr (Or.inl hcm)
  rw [astypeStrStrip_ok h7]
  simp only [except_bind_ok]
  have hnd : "Missing Timesheets" ∉ df6.cols := by
    rcases h6cols with hc | hc <;> rw [hc]
    · exact hmt
    · intro hmem
      rcases List.mem_append.mp hmem with hmm | hmm
      · exact hmt hmm
      · simp at hmm
  split
  · rw [mt_stage_ok_of_absent (by rw [mapCol_cols, mapCol_cols]; exact hnd)]
    simp only [except_bind_ok]
    split
    · exact ⟨_, rfl⟩
    · exact ⟨_, rfl⟩
  · have habs : "Missing Timesheets" ∉ (setColConst
        (mapCol df6 "Competency" (fun v => PValue.str (pyStrip (pyStr v))))
        "Rank Description" (.str "")).cols := by
      rcases setColConst_cols (mapCol df6 "Competency"
          (fun v => PValue.str (pyStrip (pyStr v)))) "Rank Description" (.str "")
        with hc | hc <;> rw [hc, mapCol_cols]
      · exact hnd
      · intro hmem
        rcases List.mem_append.mp hmem with hmm | hmm
        · exact hnd hmm
        · simp at hmm
    rw [mt_stage_ok_of_absent habs]
    simp only [except_bind_ok]
    split
    · exact ⟨_, rfl⟩
    · exact ⟨_, rfl⟩

/-- C3 counterexample: a negative numeric source value for
`Effective Available Hours` passes `pd.to_numeric(...).fillna(0)` unchanged
— the normalized output is −5, which is < 0, contradicting "greater than or
equal to 0 even when the source value is negative". -/
theorem C3_counterexample :
    (load_powerbi_export
        ⟨["GPN", "Employee Name", "Competency", "Effective Available Hours"],
         [[.str "g1", .str "Doe, Jane", .str "Tech", .num (-5)]]⟩).map
      (fun out => out.rows.map (fun r => cellAt out r "Effective Available Hours"))
      = .ok [PValue.num (-5)]
    ∧ ((-5 : ℚ) < 0) := by
  refine ⟨rfl, by norm_num⟩

/-- C3 (amended): hours normalization coerces non-numeric and missing
source values (and absent hours columns) to 0, so those cases are ≥ 0; but
negative NUMERIC source values are preserved as-is, so the normalized
hours can be negative. -/
theorem C3_hours_amended :
    (∀ q : ℚ, (to_numeric_coerce (.num q)).getD 0 = q)
    ∧ ((to_numeric_coerce PValue.null).getD 0 = 0)
    ∧ (∀ s : String, parseDecimal s = none → (to_numeric_coerce (.str s)).getD 0 = 0)
    ∧ parseDecimal "abc" = none
    ∧ ((load_powerbi_export
          ⟨["GPN", "Employee Name", "Competency",
            "Effective Available Hours", "Chargeable Hours"],
           [[.str "g1", .str "Doe, Jane", .str "Tech", .str "abc", .null]]⟩).map
        (fun out => out.rows.map (fun r =>
          (cellAt out r "Effective Available Hours", cellAt out r "Chargeable Hours")))
        = .ok [(PValue.num 0, PValue.num 0)])
    ∧ ((load_powerbi_export
          ⟨["GPN", "Employee Name", "Competency"],
           [[.str "g1", .str "Doe, Jane", .str "Tech"]]⟩).map
        (fun out => out.rows.map (fun r =>
          (cellAt out r "Effective Available Hours", cellAt out r "Chargeable Hours")))
        = .ok [(PValue.num 0, PValue.num 0)])
    ∧ (∀ (df : DataFrame) (c : String), c ∈ df.cols →
        hours_stage df c = mapCol df c (fun v => .num ((to_numeric_coerce v).getD 0))) := by
  refine ⟨fun q => rfl, rfl, ?_, rfl, rfl, rfl, ?_⟩
  · intro s h
    simp [to_numeric_coerce, h]
  · intro df c h
    obtain ⟨i, hi⟩ := colIdx_exists_of_mem h
    unfold hours_stage
    rw [hi]

/-- C3 witness: the non-numeric clause applied at the concrete string
`"abc"`. -/
theorem C3_witness :
    (to_numeric_coerce (PValue.str "abc")).getD 0 = 0 :=
  C3_hours_amended.2.2.1 "abc" (by rfl)

/-- C8 counterexample: a frame with the person identifier (GPN) and the
category label (Competency) present but the display-name column absent
still fails — `Employee Name` is also structurally required by the loader,
contradicting "when, and only when, a person identifier or category label
column is entirely absent". -/
theorem C8_counterexample :
    load_powerbi_export ⟨["GPN", "Competency"], [[.str "g1", .str "Tech"]]⟩
      = .error "KeyError: Employee Name" := by
  rfl

/-- C8 (amended): the loader fails exactly on an absent structurally
required column, but the required set is GPN, Employee Name AND Competency
(display name included); with those present (stated here for frames whose
`Missing Timesheets` column is absent, and shown on a concrete frame with
it present) loading succeeds, and missing optional columns (rank,
missing-timesheets, employment status, both hours columns) are defaulted
to `""` / `0` instead of failing. -/
theorem C8_required_columns_amended :
    (∀ df : DataFrame, "GPN" ∉ df.cols.map pyStrip →
        load_powerbi_export df = .error "KeyError: GPN")
    ∧ (∀ df : DataFrame, "GPN" ∈ df.cols.map pyStrip →
        "Employee Name" ∉ df.cols.map pyStrip →
        load_powerbi_export df = .error "KeyError: Employee Name")
    ∧ (∀ df : DataFrame, "GPN" ∈ df.cols.map pyStrip →
        "Employee Name" ∈ df.cols.map pyStrip →
        "Competency" ∉ df.cols.map pyStrip →
        load_powerbi_export df = .error "KeyError: Competency")
    ∧ (∀ df : DataFrame, "GPN" ∈ df.cols.map pyStrip →
        "Employee Name" ∈ df.cols.map pyStrip →
        "Competency" ∈ df.cols.map pyStrip →
        "Missing Timesheets" ∉ df.cols.map pyStrip →
        ∃ out, load_powerbi_export df = .ok out)
    ∧ (∃ out, load_powerbi_export
          ⟨["GPN", "Employee Name", "Competency", "Rank Description",
            "Missing Timesheets", "Employee Status",
            "Effective Available Hours", "Chargeable Hours"],
           [[.str "g1", .str "Doe, Jane", .str "Tech", .str "Senior",
             .num 1, .str "Active", .num 40, .num 20]]⟩ = .ok out)
    ∧ ((load_powerbi_export
          ⟨["GPN", "Employee Name", "Competency"],
           [[.str "g1", .str "Doe, Jane", .str "Tech"]]⟩).map
        (fun out => out.rows.map (fun r =>
          (cellAt out r "Rank Description", cellAt out r "Missing Timesheets",
           cellAt out r "Employee Status")))
        = .ok [(.str "", .num 0, .str "")]) := by
  refine ⟨fun df h => load_err_gpn h,
    fun df h1 h2 => load_err_emp h1 h2,
    fun df h1 h2 h3 => load_err_comp h1 h2 h3,
    fun df h1 h2 h3 h4 => load_ok_of_required h1 h2 h3 h4,
    ⟨_, rfl⟩, rfl⟩

/-- C8 witness: the required-column clauses applied at concrete frames. -/
theorem C8_witness :
    load_powerbi_export ⟨["Competency"], []⟩ = .error "KeyError: GPN"
    ∧ ∃ out, load_powerbi_export
        ⟨["GPN", "Employee Name", "Competency"],
         [[.str "g1", .str "Doe, Jane", .str "Tech"]]⟩ = .ok out :=
  ⟨C8_required_columns_amended.1 ⟨["Competency"], []⟩ (by decide),
   C8_required_columns_amended.2.2.2.1
     ⟨["GPN", "Employee Name", "Competency"],
      [[.str "g1", .str "Doe, Jane", .str "Tech"]]⟩
     (by decide) (by decide) (by decide) (by decide)⟩
